import Mathlib

/-!
Shallow embedding of the turboscraper crawling engine core
(retry controller, fetch transport loop, scheduler request
dispatch, stats tracker, request builder), translated from the
Rust sources under `src/`:

* `src/core/retry/types.rs`, `src/core/retry/utils.rs`,
  `src/core/retry/impl.rs` — retry controller;
* `src/scrapers/scraper.rs` — transport `fetch` inner loop;
* `src/core/crawling/crawler.rs` — scheduler `process_requests`;
* `src/stats/mod.rs` — stats tracker;
* `src/http/request.rs` — request builder.

Modelling conventions:

* `std::time::Duration` values and the `f32` factors fed to
  `Duration::mul_f32` / `f32::powi` are modelled as exact rationals
  (`ℚ`, in milliseconds); float rounding is idealized away.
* `u16` status codes and `usize` counters are `Nat`.
* The shared `Arc<RwLock<…>>` retry-state map (keyed by
  `url.to_string()`) is explicit state of type `String → RetryState`;
  `counts.get(cat).copied().unwrap_or(0)` justifies modelling the
  per-URL count map as a total function defaulting to `0`.
* The `categories: HashMap<RetryCategory, CategoryConfig>` map is
  modelled as an association list with pairwise-distinct keys, listed
  in the (fixed, unspecified) iteration order of the map instance.
* The `regex` crate is not re-implemented: regex matching is a
  parameter `rx : String → Option (String → Bool)` mapping a pattern
  to its compiled matcher (`none` = compilation failure, in which
  case the source's `unwrap_or(false)` makes the condition not match).
-/

namespace Turboscraper

/-- `RetryCategory` from `src/core/retry/types.rs`. -/
inductive RetryCategory where
  | rateLimit
  | serverError
  | botDetection
  | notFound
  | blacklisted
  | authentication
  | custom (name : String)
  | storageError
  | parseError
deriving DecidableEq, Repr

/-- `ContentRetryCondition` from `src/core/retry/types.rs`. -/
structure ContentRetryCondition where
  pattern : String
  isRegex : Bool
deriving DecidableEq, Repr

/-- `RequestRetryCondition` from `src/core/retry/types.rs`. -/
inductive RequestRetryCondition where
  | statusCode (code : Nat)
  | content (c : ContentRetryCondition)
deriving DecidableEq, Repr

/-- `ParseRetryType` from `src/core/retry/types.rs`. -/
inductive ParseRetryType where
  | sameContent
  | fetchNew
deriving DecidableEq, Repr

/-- `StorageError` from `src/storage/base.rs`. -/
inductive StorageError where
  | connectionError (msg : String)
  | operationError (msg : String)
  | serializationError (msg : String)
deriving DecidableEq, Repr

/-- `ParseRetryCondition`; the `errorWhileParsing` variant is the one
matched in `retry_parse_condition_should_apply`
(`src/core/retry/utils.rs`). -/
inductive ParseRetryCondition where
  | content (c : ContentRetryCondition) (t : ParseRetryType)
  | storageError (e : StorageError) (t : ParseRetryType)
  | errorWhileParsing (t : ParseRetryType)
deriving DecidableEq, Repr

/-- `RetryCondition` from `src/core/retry/types.rs`. -/
inductive RetryCondition where
  | request (c : RequestRetryCondition)
  | parse (c : ParseRetryCondition)
deriving DecidableEq, Repr

/-- `BackoffPolicy` from `src/core/retry/types.rs`; the `f32` factor
is an exact rational. -/
inductive BackoffPolicy where
  | constant
  | linear
  | exponential (factor : ℚ)
deriving DecidableEq, Repr

/-- `CategoryConfig` from `src/core/retry/types.rs`; durations in
milliseconds as rationals. -/
structure CategoryConfig where
  max_retries : Nat
  initial_delay : ℚ
  max_delay : ℚ
  backoff_policy : BackoffPolicy
  conditions : List RetryCondition
deriving DecidableEq, Repr

/-- `RetryState` from `src/core/retry/types.rs`; the per-category
count map is a total function defaulting to `0`. -/
structure RetryState where
  counts : RetryCategory → Nat
  total_retries : Nat

/-- `RetryState::new` (`src/core/retry/impl.rs`): empty counts,
zero total. -/
def RetryState.new : RetryState :=
  { counts := fun _ => 0, total_retries := 0 }

/-- The `categories` field of `RetryConfig`
(`src/core/retry/types.rs`): a `HashMap` modelled as an association
list in the map instance's iteration order. -/
structure RetryConfig where
  categories : List (RetryCategory × CategoryConfig)

/-- The shared `retry_states` map of `RetryConfig`, keyed by
`url.to_string()`; absent keys behave as `RetryState::new`
(`entry(url_str).or_default()`). -/
def RetryStates : Type := String → RetryState

/-- The state of the `retry_states` map at crawl start: empty. -/
def initialStates : RetryStates := fun _ => RetryState.new

/-- `ScraperError` from `src/core/errors.rs` (payloads of the
dependency-bubbled variants reduced to their messages). -/
inductive ScraperError where
  | httpError (msg : String)
  | urlError (msg : String)
  | ioError (msg : String)
  | jsonError (msg : String)
  | parsingError (msg : String)
  | middlewareError (msg : String)
  | storageError (e : StorageError)
  | maxRetriesReached (category : RetryCategory) (retry_count : Nat) (url : String)
deriving DecidableEq, Repr

/-- `check_content_condition` (`src/core/retry/utils.rs`).
`rx` models `Regex::new`: `none` is a compilation failure, and
`.map(|re| re.is_match(content)).unwrap_or(false)` then yields
`false`.  The non-regex branch lowercases both sides and tests
substring containment (`str::contains`). -/
def check_content_condition (rx : String → Option (String → Bool))
    (condition : ContentRetryCondition) (content : String) : Bool :=
  if condition.isRegex then
    match rx condition.pattern with
    | some isMatch => isMatch content
    | none => false
  else
    (content.toLower).containsSubstr (condition.pattern.toLower)

/-- `retry_request_condition_should_apply` (`src/core/retry/utils.rs`). -/
def retry_request_condition_should_apply (rx : String → Option (String → Bool))
    (condition : RequestRetryCondition) (status : Nat) (content : String) : Bool :=
  match condition with
  | .statusCode code => code == status
  | .content contentCondition => check_content_condition rx contentCondition content

/-- `retry_parse_condition_should_apply` (`src/core/retry/utils.rs`):
storage errors match by variant tag only, payloads ignored. -/
def retry_parse_condition_should_apply (rx : String → Option (String → Bool))
    (condition : ParseRetryCondition) (error : ScraperError) : Bool :=
  match condition with
  | .content contentCondition _ =>
    match error with
    | .parsingError msg => check_content_condition rx contentCondition msg
    | _ => false
  | .storageError expectedError _ =>
    match error with
    | .storageError actualError =>
      match expectedError, actualError with
      | .connectionError _, .connectionError _ => true
      | .operationError _, .operationError _ => true
      | .serializationError _, .serializationError _ => true
      | _, _ => false
    | _ => false
  | .errorWhileParsing _ =>
    match error with
    | .parsingError _ => true
    | _ => false

/-- `calculate_delay` (`src/core/retry/utils.rs`): attempt `0`
returns `initial_delay` unconditionally; otherwise the policy formula
is capped by `max_delay` via `std::cmp::min`. -/
def calculate_delay (config : CategoryConfig) (attempt : Nat) : ℚ :=
  if attempt = 0 then
    config.initial_delay
  else
    let delay :=
      match config.backoff_policy with
      | .constant => config.initial_delay
      | .linear => config.initial_delay * (attempt : ℚ)
      | .exponential factor => config.initial_delay * factor ^ attempt
    min delay config.max_delay

/-- Whether a `RetryCondition` is a request-kind condition that
applies to `(status, content)`: the inner `for condition` loop body of
`should_retry_request` (`src/core/retry/impl.rs`) acts exactly on the
first condition for which this holds. -/
def requestConditionApplies (rx : String → Option (String → Bool))
    (condition : RetryCondition) (status : Nat) (content : String) : Bool :=
  match condition with
  | .request reqCondition => retry_request_condition_should_apply rx reqCondition status content
  | .parse _ => false

/-- Whether a `RetryCondition` is a parse-kind condition that applies
to `error`: the inner loop body of `should_retry_parse`. -/
def parseConditionApplies (rx : String → Option (String → Bool))
    (condition : RetryCondition) (error : ScraperError) : Bool :=
  match condition with
  | .request _ => false
  | .parse parseCondition => retry_parse_condition_should_apply rx parseCondition error

/-- The category scan of `should_retry_request`
(`src/core/retry/impl.rs` lines 48-65): skip a category whose current
count has reached `max_retries` (`continue`), otherwise return the
first category one of whose request-kind conditions applies. -/
def findRequestCategory (rx : String → Option (String → Bool)) (state : RetryState)
    (status : Nat) (content : String) :
    List (RetryCategory × CategoryConfig) → Option (RetryCategory × CategoryConfig)
  | [] => none
  | (category, config) :: rest =>
    if config.max_retries ≤ state.counts category then
      findRequestCategory rx state status content rest
    else if config.conditions.any (fun c => requestConditionApplies rx c status content) then
      some (category, config)
    else
      findRequestCategory rx state status content rest

/-- The category scan of `should_retry_parse`
(`src/core/retry/impl.rs` lines 78-95). -/
def findParseCategory (rx : String → Option (String → Bool)) (state : RetryState)
    (error : ScraperError) :
    List (RetryCategory × CategoryConfig) → Option (RetryCategory × CategoryConfig)
  | [] => none
  | (category, config) :: rest =>
    if config.max_retries ≤ state.counts category then
      findParseCategory rx state error rest
    else if config.conditions.any (fun c => parseConditionApplies rx c error) then
      some (category, config)
    else
      findParseCategory rx state error rest

/-- `RetryConfig::should_retry_request` (`src/core/retry/impl.rs`):
on the first match, insert `current + 1` for the matched category,
increment `total_retries`, and return the delay computed from the
pre-increment count.  The mutation of the shared `retry_states` map
is returned as the second component. -/
def should_retry_request (rx : String → Option (String → Bool)) (cfg : RetryConfig)
    (states : RetryStates) (url : String) (status : Nat) (content : String) :
    Option (RetryCategory × ℚ) × RetryStates :=
  let state := states url
  match findRequestCategory rx state status content cfg.categories with
  | none => (none, states)
  | some (category, config) =>
    let current_retries := state.counts category
    let newState : RetryState :=
      { counts := fun c => if c = category then current_retries + 1 else state.counts c
        total_retries := state.total_retries + 1 }
    (some (category, calculate_delay config current_retries),
     fun u => if u = url then newState else states u)

/-- `RetryConfig::should_retry_parse` (`src/core/retry/impl.rs`). -/
def should_retry_parse (rx : String → Option (String → Bool)) (cfg : RetryConfig)
    (states : RetryStates) (url : String) (error : ScraperError) :
    Option (RetryCategory × ℚ) × RetryStates :=
  let state := states url
  match findParseCategory rx state error cfg.categories with
  | none => (none, states)
  | some (category, config) =>
    let current_retries := state.counts category
    let newState : RetryState :=
      { counts := fun c => if c = category then current_retries + 1 else state.counts c
        total_retries := state.total_retries + 1 }
    (some (category, calculate_delay config current_retries),
     fun u => if u = url then newState else states u)

/-- `RetryConfig::get_retry_state` (`src/core/retry/impl.rs`):
snapshot of the state for a URL, `RetryState::new` when absent. -/
def get_retry_state (states : RetryStates) (url : String) : RetryState :=
  states url

/-- One state-mutating call on the retry controller. -/
inductive RetryEvent where
  | request (url : String) (status : Nat) (content : String)
  | parse (url : String) (error : ScraperError)

/-- The state mutation performed by one controller call. -/
def applyEvent (rx : String → Option (String → Bool)) (cfg : RetryConfig)
    (states : RetryStates) : RetryEvent → RetryStates
  | .request url status content => (should_retry_request rx cfg states url status content).2
  | .parse url error => (should_retry_parse rx cfg states url error).2

/-- The retry-state map after a sequence of controller calls. -/
def runEvents (rx : String → Option (String → Bool)) (cfg : RetryConfig)
    (states : RetryStates) : List RetryEvent → RetryStates
  | [] => states
  | e :: rest => runEvents rx cfg (applyEvent rx cfg states e) rest

/-- `serde_json::Value` (external), modelled structurally. -/
inductive JsonValue where
  | null
  | bool (b : Bool)
  | num (q : ℚ)
  | str (s : String)
  | arr (xs : List JsonValue)
  | obj (fields : List (String × JsonValue))

/-- `SpiderCallback` from `src/core/spider.rs`. -/
inductive SpiderCallback where
  | bootstrap
  | parseItem
  | parsePagination
  | custom (name : String)

/-- `HttpRequest` from `src/http/request.rs`; `Url` and
`reqwest::Method` are modelled as strings. -/
structure HttpRequest where
  url : String
  callback : SpiderCallback
  meta : Option JsonValue
  depth : Nat
  method : String
  headers : List (String × String)
  body : Option String

/-- `HttpRequest::new` (`src/http/request.rs`). -/
def HttpRequest.new (url : String) (callback : SpiderCallback) (depth : Nat) : HttpRequest :=
  { url := url, callback := callback, meta := none, depth := depth
    method := "GET", headers := [], body := none }

/-- The fields of `HttpResponse` (`src/http/response.rs`) produced
and consumed by the transport `fetch` loop; the remaining fields
(headers, timestamp, response type, back-reference) are carried
through `fetch_single` unchanged and are omitted. -/
structure HttpResponse where
  status : Nat
  decoded_body : String
  retry_count : Nat
  retry_history : RetryCategory → Nat

/-- The value returned by `Scraper::fetch`
(`src/scrapers/scraper.rs`): a response, or the terminal
`ScraperError::MaxRetriesReached` paired with the original request.
`fuelOut` is the artifact of modelling the unbounded `loop` with
fuel; it is never produced when enough fuel is supplied. -/
inductive FetchOutcome where
  | ok (response : HttpResponse)
  | maxRetriesReached (category : RetryCategory) (retry_count : Nat)
      (url : String) (request : HttpRequest)
  | fuelOut

/-- `categories.get(&category).map(|c| c.max_retries).unwrap_or(0)`
(`src/scrapers/scraper.rs` lines 44-49). -/
def lookupCategory (category : RetryCategory) :
    List (RetryCategory × CategoryConfig) → Option CategoryConfig
  | [] => none
  | (c, config) :: rest =>
    if c = category then some config else lookupCategory category rest

/-- Max-retries of a category as read back inside `fetch`. -/
def fetchCategoryMax (cfg : RetryConfig) (category : RetryCategory) : Nat :=
  match lookupCategory category cfg.categories with
  | some config => config.max_retries
  | none => 0

/-- The `loop` of `Scraper::fetch` (`src/scrapers/scraper.rs`).
The transport (`fetch_single`, as in the mock scraper) is a function
from the attempt number to a `(status, decoded_body)` pair; stats
recording and `sleep(delay)` have no effect on control flow or on
the returned values and are omitted.  On a retry match the code
re-reads the now-incremented count and compares it with
`max_retries` (`attempt >= &max_retries`); on no match it attaches
the state snapshot's `total_retries` and `counts` to the response. -/
def fetch (rx : String → Option (String → Bool)) (cfg : RetryConfig)
    (transport : Nat → Nat × String) (request : HttpRequest) :
    Nat → Nat → RetryStates → FetchOutcome × RetryStates
  | 0, _, states => (.fuelOut, states)
  | fuel + 1, attemptIdx, states =>
    match should_retry_request rx cfg states request.url
        (transport attemptIdx).1 (transport attemptIdx).2 with
    | (some (category, _delay), states') =>
      if fetchCategoryMax cfg category ≤
          (get_retry_state states' request.url).counts category then
        (.maxRetriesReached category
          ((get_retry_state states' request.url).counts category)
          request.url request, states')
      else
        fetch rx cfg transport request fuel (attemptIdx + 1) states'
    | (none, states') =>
      (.ok { status := (transport attemptIdx).1
             decoded_body := (transport attemptIdx).2
             retry_count := (get_retry_state states' request.url).total_retries
             retry_history := (get_retry_state states' request.url).counts }, states')

/-- `Crawler::process_requests` (`src/core/crawling/crawler.rs`):
for each request in order, drop it when `depth >= max_depth`; drop it
when not a retry, revisits are not allowed, and the URL is already in
the visited set; otherwise insert the URL into the visited set and
spawn a fetch task for it.  The visited `HashSet<String>` is a list
of URLs tested by membership; the concurrency-cap wait and the task
body do not affect which requests are spawned and are omitted.
Returns the final visited set and the spawned requests in order. -/
def process_requests (max_depth : Nat) (allow_url_revisit : Bool) (is_retry : Bool) :
    List HttpRequest → List String → List String × List HttpRequest
  | [], visited => (visited, [])
  | request :: rest, visited =>
    if max_depth ≤ request.depth then
      process_requests max_depth allow_url_revisit is_retry rest visited
    else if !is_retry && !allow_url_revisit && visited.contains request.url then
      process_requests max_depth allow_url_revisit is_retry rest visited
    else
      let visited' := request.url :: visited
      let result := process_requests max_depth allow_url_revisit is_retry rest visited'
      (result.1, request :: result.2)

/-- `ErrorType` from `src/stats/mod.rs`. -/
inductive ErrorType where
  | storage
  | parsing
  | unhandled

/-- The counter state of `StatsTracker` (`src/stats/mod.rs`).
Atomics and the lock-guarded maps are plain values; the two maps are
total functions defaulting to `0` (`entry(..).or_insert(0)`).
`duration.num_milliseconds() as u64` is modelled on non-negative
millisecond durations. -/
structure StatsTracker where
  total_requests : Nat
  successful_requests : Nat
  failed_requests : Nat
  retry_count : Nat
  data_downloaded : Nat
  total_response_time : Nat
  status_codes : Nat → Nat
  retry_reasons : String → Nat
  storage_errors : Nat
  parsing_errors : Nat
  unhandled_errors : Nat

/-- `StatsTracker::new` (`src/stats/mod.rs`): all counters zero. -/
def StatsTracker.new : StatsTracker :=
  { total_requests := 0, successful_requests := 0, failed_requests := 0
    retry_count := 0, data_downloaded := 0, total_response_time := 0
    status_codes := fun _ => 0, retry_reasons := fun _ => 0
    storage_errors := 0, parsing_errors := 0, unhandled_errors := 0 }

/-- `StatsTracker::record_request` (`src/stats/mod.rs`): always bump
`total_requests`; bump `successful_requests` when `status < 400` and
parsing succeeded, else `failed_requests`; bump the status-code
bucket, the bytes counter and the response-time sum. -/
def record_request (s : StatsTracker) (status : Nat) (size : Nat)
    (durationMs : Nat) (is_parsing_successful : Bool) : StatsTracker :=
  { s with
    total_requests := s.total_requests + 1
    successful_requests :=
      if status < 400 ∧ is_parsing_successful = true then
        s.successful_requests + 1
      else
        s.successful_requests
    failed_requests :=
      if status < 400 ∧ is_parsing_successful = true then
        s.failed_requests
      else
        s.failed_requests + 1
    status_codes := fun c => if c = status then s.status_codes c + 1 else s.status_codes c
    data_downloaded := s.data_downloaded + size
    total_response_time := s.total_response_time + durationMs }

/-- `StatsTracker::record_retry` (`src/stats/mod.rs`). -/
def record_retry (s : StatsTracker) (category : String) : StatsTracker :=
  { s with
    retry_count := s.retry_count + 1
    retry_reasons := fun c => if c = category then s.retry_reasons c + 1 else s.retry_reasons c }

/-- `StatsTracker::record_error` (`src/stats/mod.rs`). -/
def record_error (s : StatsTracker) (error_type : ErrorType) : StatsTracker :=
  match error_type with
  | .storage => { s with storage_errors := s.storage_errors + 1 }
  | .parsing => { s with parsing_errors := s.parsing_errors + 1 }
  | .unhandled => { s with unhandled_errors := s.unhandled_errors + 1 }

/-- One recording call on the stats tracker. -/
inductive StatsEvent where
  | request (status : Nat) (size : Nat) (durationMs : Nat) (is_parsing_successful : Bool)
  | retry (category : String)
  | error (error_type : ErrorType)

/-- Apply one recording call. -/
def applyStatsEvent (s : StatsTracker) : StatsEvent → StatsTracker
  | .request status size durationMs ok => record_request s status size durationMs ok
  | .retry category => record_retry s category
  | .error t => record_error s t

/-- The tracker state after a sequence of recording calls. -/
def runStatsEvents (s : StatsTracker) : List StatsEvent → StatsTracker
  | [] => s
  | e :: rest => runStatsEvents (applyStatsEvent s e) rest

/-- The possible outcomes of a call that may `panic!` (here: the
`unwrap()` inside `HttpRequest::with_meta`). -/
inductive PanicOr (α : Type) where
  | panicked (msg : String)
  | value (v : α)

/-- The error component of `ScraperResult<T>`
(`src/core/errors.rs`): `(ScraperError, Box<HttpRequest>)`. -/
def ScraperErrPair : Type := ScraperError × HttpRequest

/-- `HttpRequest::with_meta` (`src/http/request.rs`):
`self.meta = Some(serde_json::to_value(meta).unwrap()); Ok(self)`.
The result of `serde_json::to_value(meta)` (external) is passed in as
`toValueResult`; `unwrap()` on its `Err` is a panic. -/
def with_meta (request : HttpRequest) (toValueResult : Except String JsonValue) :
    PanicOr (Except ScraperErrPair HttpRequest) :=
  match toValueResult with
  | .error e => .panicked e
  | .ok v => .value (.ok { request with meta := some v })

/-- A regex oracle under which every pattern fails to compile; the
concrete scenarios below only use status-code conditions, which do
not consult the oracle. -/
def rxNone : String → Option (String → Bool) := fun _ => none

/-- The `RateLimit` category config of the max-retries scenario
(spec §8 scenario 3, `src/core/retry/tests.rs`): `max_retries = 2`,
`initial_delay = 100ms`, `max_delay = 1s`, Constant backoff,
condition `Request(StatusCode(429))`. -/
def rateLimitStatusConfig : CategoryConfig :=
  { max_retries := 2, initial_delay := 100, max_delay := 1000
    backoff_policy := .constant
    conditions := [.request (.statusCode 429)] }

/-- A retry config with the single `RateLimit` category above. -/
def rateLimitRetryConfig : RetryConfig :=
  { categories := [(RetryCategory.rateLimit, rateLimitStatusConfig)] }

/-- The request of the concrete transport scenarios. -/
def exampleRequest : HttpRequest :=
  HttpRequest.new "https://example.com/" .bootstrap 0

/-- A transport that always answers `429 Rate limited`
(mock responses `[{429}]` repeating). -/
def always429 : Nat → Nat × String := fun _ => (429, "Rate limited")

/-- A transport that answers `429` once, then `200 Success`. -/
def once429Transport : Nat → Nat × String :=
  fun n => if n = 0 then (429, "Rate limited") else (200, "Success")

/-- A retry-state map in which every URL has one recorded `RateLimit`
retry (the state after the first 429 of the max-retries scenario). -/
def oneRateLimitStates : RetryStates :=
  fun _ => { counts := fun c => if c = RetryCategory.rateLimit then 1 else 0
             total_retries := 1 }

/-- Invariant: every stored per-URL count of a configured category is
at most that category's `max_retries`. -/
def CountsBounded (cfg : RetryConfig) (states : RetryStates) : Prop :=
  ∀ (u : String) (category : RetryCategory) (config : CategoryConfig),
    (category, config) ∈ cfg.categories →
    (states u).counts category ≤ config.max_retries

/-- Invariant: every URL's `total_retries` equals the sum of its
per-category counts over the configured categories. -/
def TotalEqSum (cfg : RetryConfig) (states : RetryStates) : Prop :=
  ∀ u : String, (states u).total_retries =
    (cfg.categories.map (fun p => (states u).counts p.1)).sum

/-! ### Helper lemmas -/

/-- A successful category scan yields an entry of the list whose
count is below its cap and one of whose request-kind conditions
applies. -/
theorem findRequestCategory_some_mem {rx : String → Option (String → Bool)}
    {state : RetryState} {status : Nat} {content : String} :
    ∀ {l : List (RetryCategory × CategoryConfig)} {p : RetryCategory × CategoryConfig},
    findRequestCategory rx state status content l = some p →
    p ∈ l ∧ state.counts p.1 < p.2.max_retries ∧
      p.2.conditions.any (fun c => requestConditionApplies rx c status content) = true := by
  intro l
  induction l with
  | nil => intro p h; simp [findRequestCategory] at h
  | cons hd tl ih =>
    intro p h
    by_cases hcap : hd.2.max_retries ≤ state.counts hd.1
    · rw [show hd = (hd.1, hd.2) from rfl, findRequestCategory, if_pos hcap] at h
      obtain ⟨hm, hc, ha⟩ := ih h
      exact ⟨List.mem_cons_of_mem _ hm, hc, ha⟩
    · by_cases hany : hd.2.conditions.any (fun c => requestConditionApplies rx c status content) = true
      · rw [show hd = (hd.1, hd.2) from rfl, findRequestCategory, if_neg hcap, if_pos hany] at h
        cases h
        exact ⟨List.mem_cons_self _ _, lt_of_not_le hcap, hany⟩
      · rw [show hd = (hd.1, hd.2) from rfl, findRequestCategory, if_neg hcap,
          if_neg hany] at h
        obtain ⟨hm, hc, ha⟩ := ih h
        exact ⟨List.mem_cons_of_mem _ hm, hc, ha⟩

/-- A failed category scan means no entry both is below its cap and
has an applying request-kind condition. -/
theorem findRequestCategory_none_not_mem {rx : String → Option (String → Bool)}
    {state : RetryState} {status : Nat} {content : String} :
    ∀ {l : List (RetryCategory × CategoryConfig)},
    findRequestCategory rx state status content l = none →
    ∀ p ∈ l, ¬ (state.counts p.1 < p.2.max_retries ∧
      p.2.conditions.any (fun c => requestConditionApplies rx c status content) = true) := by
  intro l
  induction l with
  | nil => intro _ p hp; simp at hp
  | cons hd tl ih =>
    intro h p hp
    by_cases hcap : hd.2.max_retries ≤ state.counts hd.1
    · rw [show hd = (hd.1, hd.2) from rfl, findRequestCategory, if_pos hcap] at h
      rcases List.mem_cons.1 hp with hph | hpt
      · subst hph; rintro ⟨hlt, -⟩; exact absurd hcap (not_le.mpr hlt)
      · exact ih h p hpt
    · by_cases hany : hd.2.conditions.any (fun c => requestConditionApplies rx c status content) = true
      · rw [show hd = (hd.1, hd.2) from rfl, findRequestCategory, if_neg hcap, if_pos hany] at h
        cases h
      · rw [show hd = (hd.1, hd.2) from rfl, findRequestCategory, if_neg hcap,
          if_neg hany] at h
        rcases List.mem_cons.1 hp with hph | hpt
        · subst hph; rintro ⟨-, ha⟩; exact hany ha
        · exact ih h p hpt

/-- Analogue of `findRequestCategory_some_mem` for the parse scan. -/
theorem findParseCategory_some_mem {rx : String → Option (String → Bool)}
    {state : RetryState} {error : ScraperError} :
    ∀ {l : List (RetryCategory × CategoryConfig)} {p : RetryCategory × CategoryConfig},
    findParseCategory rx state error l = some p →
    p ∈ l ∧ state.counts p.1 < p.2.max_retries := by
  intro l
  induction l with
  | nil => intro p h; simp [findParseCategory] at h
  | cons hd tl ih =>
    intro p h
    by_cases hcap : hd.2.max_retries ≤ state.counts hd.1
    · rw [show hd = (hd.1, hd.2) from rfl, findParseCategory, if_pos hcap] at h
      obtain ⟨hm, hc⟩ := ih h
      exact ⟨List.mem_cons_of_mem _ hm, hc⟩
    · by_cases hany : hd.2.conditions.any (fun c => parseConditionApplies rx c error) = true
      · rw [show hd = (hd.1, hd.2) from rfl, findParseCategory, if_neg hcap, if_pos hany] at h
        cases h
        exact ⟨List.mem_cons_self _ _, lt_of_not_le hcap⟩
      · rw [show hd = (hd.1, hd.2) from rfl, findParseCategory, if_neg hcap, if_neg hany] at h
        obtain ⟨hm, hc⟩ := ih h
        exact ⟨List.mem_cons_of_mem _ hm, hc⟩

/-- Unfolding of `should_retry_request`: the call either finds a
category and performs exactly the one-category bump, or finds none
and leaves the state map untouched. -/
theorem should_retry_request_eq (rx : String → Option (String → Bool)) (cfg : RetryConfig)
    (states : RetryStates) (url : String) (status : Nat) (content : String) :
    (∃ category config,
      findRequestCategory rx (states url) status content cfg.categories = some (category, config) ∧
      should_retry_request rx cfg states url status content =
        (some (category, calculate_delay config ((states url).counts category)),
         fun u => if u = url then
           { counts := fun c => if c = category then (states url).counts category + 1
             else (states url).counts c
             total_retries := (states url).total_retries + 1 }
         else states u)) ∨
    (findRequestCategory rx (states url) status content cfg.categories = none ∧
      should_retry_request rx cfg states url status content = (none, states)) := by
  rcases h : findRequestCategory rx (states url) status content cfg.categories with - | ⟨category, config⟩
  · right
    exact ⟨rfl, by simp [should_retry_request, h]⟩
  · left
    exact ⟨category, config, rfl, by simp [should_retry_request, h]⟩

/-- Analogue of `should_retry_request_eq` for `should_retry_parse`. -/
theorem should_retry_parse_eq (rx : String → Option (String → Bool)) (cfg : RetryConfig)
    (states : RetryStates) (url : String) (error : ScraperError) :
    (∃ category config,
      findParseCategory rx (states url) error cfg.categories = some (category, config) ∧
      should_retry_parse rx cfg states url error =
        (some (category, calculate_delay config ((states url).counts category)),
         fun u => if u = url then
           { counts := fun c => if c = category then (states url).counts category + 1
             else (states url).counts c
             total_retries := (states url).total_retries + 1 }
         else states u)) ∨
    (findParseCategory rx (states url) error cfg.categories = none ∧
      should_retry_parse rx cfg states url error = (none, states)) := by
  rcases h : findParseCategory rx (states url) error cfg.categories with - | ⟨category, config⟩
  · right
    exact ⟨rfl, by simp [should_retry_parse, h]⟩
  · left
    exact ⟨category, config, rfl, by simp [should_retry_parse, h]⟩

/-! ### C4 — delay formula and cap -/

/-- C4 counterexample: the claim "in all cases (including n = 0) the
returned delay is at most max-delay" fails at the concrete category
config `{initial_delay := 10, max_delay := 5, Constant}` and attempt
index `0`: `calculate_delay` returns `10 > 5` because the
`attempt == 0` early return skips the cap. -/
theorem calculate_delay_zero_exceeds_cap :
    calculate_delay
      { max_retries := 3, initial_delay := 10, max_delay := 5
        backoff_policy := .constant, conditions := [] } 0 = 10 ∧
    ¬ (calculate_delay
      { max_retries := 3, initial_delay := 10, max_delay := 5
        backoff_policy := .constant, conditions := [] } 0 ≤ (5 : ℚ)) := by
  constructor
  · rfl
  · norm_num [calculate_delay]

/-- C4 (amended): `calculate_delay` returns `initial_delay` at
attempt `0` regardless of policy — uncapped, so it can exceed
`max_delay`; for `n ≥ 1` it returns the policy formula
(`initial_delay`, `initial_delay·n`, `initial_delay·f^n`) capped by
`max_delay`, and in particular is then at most `max_delay`. -/
theorem calculate_delay_formula (config : CategoryConfig) (n : Nat) (hn : 1 ≤ n) :
    calculate_delay config 0 = config.initial_delay ∧
    (config.backoff_policy = .constant →
      calculate_delay config n = min config.initial_delay config.max_delay) ∧
    (config.backoff_policy = .linear →
      calculate_delay config n = min (config.initial_delay * (n : ℚ)) config.max_delay) ∧
    (∀ f, config.backoff_policy = .exponential f →
      calculate_delay config n = min (config.initial_delay * f ^ n) config.max_delay) ∧
    calculate_delay config n ≤ config.max_delay := by
  have hne : n ≠ 0 := Nat.one_le_iff_ne_zero.mp hn
  refine ⟨by simp [calculate_delay], ?_, ?_, ?_, ?_⟩
  · intro h; simp [calculate_delay, hne, h]
  · intro h; simp [calculate_delay, hne, h]
  · intro f h; simp [calculate_delay, hne, h]
  · rcases hp : config.backoff_policy with - | - | f <;>
      simp [calculate_delay, hne, hp, min_le_right]

/-- Witness for `calculate_delay_formula` at a concrete config and
attempt index `1`. -/
theorem calculate_delay_formula_witness :
    calculate_delay
      { max_retries := 3, initial_delay := 100, max_delay := 1000
        backoff_policy := .linear, conditions := [] } 0 = 100 ∧
    calculate_delay
      { max_retries := 3, initial_delay := 100, max_delay := 1000
        backoff_policy := .linear, conditions := [] } 1 = min (100 * (1 : ℚ)) 1000 := by
  have h := calculate_delay_formula
    { max_retries := 3, initial_delay := 100, max_delay := 1000
      backoff_policy := .linear, conditions := [] } 1 (le_refl 1)
  exact ⟨h.1, h.2.2.1 rfl⟩

/-! ### C8 — delay monotonicity -/

/-- C8 counterexample: with the Exponential policy and factor `1/2`
(initial delay `4`, cap `100`), the delay at attempt `1` is `2`,
strictly below the delay `4` at attempt `0`: the sequence of
successive delays is not non-decreasing. -/
theorem calculate_delay_exponential_half_decreases :
    calculate_delay
      { max_retries := 3, initial_delay := 4, max_delay := 100
        backoff_policy := .exponential (1 / 2), conditions := [] } 1 <
    calculate_delay
      { max_retries := 3, initial_delay := 4, max_delay := 100
        backoff_policy := .exponential (1 / 2), conditions := [] } 0 := by
  norm_num [calculate_delay]

/-- C8 (amended): for a category with Linear backoff, or Exponential
backoff with factor `≥ 1`, and whose (non-negative) initial delay
does not exceed `max_delay`, the delays of successive pre-increment
attempt indices `0, 1, 2, …` are non-decreasing. -/
theorem calculate_delay_monotone (config : CategoryConfig)
    (hpos : 0 ≤ config.initial_delay) (hcap : config.initial_delay ≤ config.max_delay)
    (hpol : config.backoff_policy = .linear ∨
      ∃ f, config.backoff_policy = .exponential f ∧ 1 ≤ f)
    (n : Nat) : calculate_delay config n ≤ calculate_delay config (n + 1) := by
  rcases n with - | m
  · rcases hpol with h | ⟨f, h, hf⟩
    · simp only [calculate_delay, h]
      norm_num
      exact hcap
    · simp only [calculate_delay, h]
      norm_num
      refine ⟨?_, hcap⟩
      calc config.initial_delay = config.initial_delay * 1 := by ring
        _ ≤ config.initial_delay * f := by nlinarith
  · rcases hpol with h | ⟨f, h, hf⟩
    · simp only [calculate_delay, h, Nat.succ_ne_zero, if_false]
      refine min_le_min ?_ (le_refl _)
      have : ((m : ℚ) + 1) ≤ ((m : ℚ) + 1 + 1) := by linarith
      push_cast
      nlinarith [Nat.cast_nonneg (α := ℚ) m]
    · simp only [calculate_delay, h, Nat.succ_ne_zero, if_false]
      refine min_le_min ?_ (le_refl _)
      have hfn : f ^ (m + 1) ≤ f ^ (m + 1 + 1) :=
        pow_le_pow_right₀ (by linarith) (Nat.le_succ _)
      nlinarith [pow_nonneg (by linarith : (0:ℚ) ≤ f) (m + 1)]

/-- Witness for `calculate_delay_monotone` at a concrete Linear
config and attempt index `0`. -/
theorem calculate_delay_monotone_witness :
    calculate_delay
      { max_retries := 3, initial_delay := 100, max_delay := 1000
        backoff_policy := .linear, conditions := [] } 0 ≤
    calculate_delay
      { max_retries := 3, initial_delay := 100, max_delay := 1000
        backoff_policy := .linear, conditions := [] } 1 :=
  calculate_delay_monotone _ (by norm_num) (by norm_num) (Or.inl rfl) 0

/-! ### C9 — stats tracker request accounting -/

/-- Every single recording call keeps
`total_requests = successful_requests + failed_requests`. -/
theorem applyStatsEvent_sum (s : StatsTracker)
    (h : s.total_requests = s.successful_requests + s.failed_requests) (e : StatsEvent) :
    (applyStatsEvent s e).total_requests =
      (applyStatsEvent s e).successful_requests + (applyStatsEvent s e).failed_requests := by
  cases e with
  | request status size durationMs ok =>
    by_cases hc : status < 400 ∧ ok = true <;>
      simp [applyStatsEvent, record_request, hc, h] <;> omega
  | retry category => simpa [applyStatsEvent, record_retry] using h
  | error t => cases t <;> simpa [applyStatsEvent, record_error] using h

/-- The sum identity is preserved along any sequence of
recording calls. -/
theorem runStatsEvents_sum (events : List StatsEvent) :
    ∀ s : StatsTracker, s.total_requests = s.successful_requests + s.failed_requests →
    (runStatsEvents s events).total_requests =
      (runStatsEvents s events).successful_requests +
        (runStatsEvents s events).failed_requests := by
  induction events with
  | nil => intro s h; exact h
  | cons e rest ih =>
    intro s h
    exact ih (applyStatsEvent s e) (applyStatsEvent_sum s h e)

/-- C9: `record_request` increments `successful_requests` exactly
when `status < 400` and parsing succeeded, increments
`failed_requests` otherwise, always increments `total_requests`; and
along any sequence of recording calls starting from
`StatsTracker::new`, `total_requests` equals
`successful_requests + failed_requests`. -/
theorem record_request_spec :
    (∀ (s : StatsTracker) (status size durationMs : Nat) (ok : Bool),
      (record_request s status size durationMs ok).total_requests = s.total_requests + 1 ∧
      (status < 400 ∧ ok = true →
        (record_request s status size durationMs ok).successful_requests =
          s.successful_requests + 1 ∧
        (record_request s status size durationMs ok).failed_requests = s.failed_requests) ∧
      (¬ (status < 400 ∧ ok = true) →
        (record_request s status size durationMs ok).successful_requests =
          s.successful_requests ∧
        (record_request s status size durationMs ok).failed_requests =
          s.failed_requests + 1)) ∧
    (∀ events : List StatsEvent,
      (runStatsEvents StatsTracker.new events).total_requests =
        (runStatsEvents StatsTracker.new events).successful_requests +
          (runStatsEvents StatsTracker.new events).failed_requests) := by
  constructor
  · intro s status size durationMs ok
    refine ⟨rfl, fun hc => ?_, fun hc => ?_⟩ <;> simp [record_request, hc]
  · intro events
    exact runStatsEvents_sum events StatsTracker.new rfl

/-- Witness for `record_request_spec` at concrete recording calls:
a `200`/parse-ok call counts as successful, a `500` call as failed. -/
theorem record_request_spec_witness :
    (record_request StatsTracker.new 200 10 5 true).successful_requests = 1 ∧
    (record_request StatsTracker.new 500 10 5 true).failed_requests = 1 ∧
    (record_request StatsTracker.new 200 10 5 true).total_requests = 1 := by
  refine ⟨?_, ?_, (record_request_spec.1 StatsTracker.new 200 10 5 true).1⟩
  · exact ((record_request_spec.1 StatsTracker.new 200 10 5 true).2.1
      ⟨by norm_num, rfl⟩).1
  · exact ((record_request_spec.1 StatsTracker.new 500 10 5 true).2.2
      (by norm_num)).2

/-! ### C10 — `with_meta` never returns `Err` -/

/-- C10: `HttpRequest::with_meta` never produces the `Err` branch of
its `ScraperResult` return type: successful serialization yields
`Ok` of the request with `meta` set, and failed serialization panics
through `unwrap()` instead of propagating the error. -/
theorem with_meta_never_err (request : HttpRequest)
    (toValueResult : Except String JsonValue) :
    (∀ err : ScraperErrPair, with_meta request toValueResult ≠ .value (.error err)) ∧
    (∀ v, toValueResult = .ok v →
      with_meta request toValueResult = .value (.ok { request with meta := some v })) ∧
    (∀ e, toValueResult = .error e →
      with_meta request toValueResult = .panicked e) := by
  refine ⟨?_, ?_, ?_⟩
  · intro err h
    cases toValueResult <;> simp [with_meta] at h
  · intro v h; subst h; rfl
  · intro e h; subst h; rfl

/-- Witness for `with_meta_never_err` at a concrete request, for
both a successful and a failing serialization result. -/
theorem with_meta_never_err_witness :
    with_meta (HttpRequest.new "https://example.com/" .bootstrap 0) (.ok .null) =
      .value (.ok { HttpRequest.new "https://example.com/" .bootstrap 0 with
        meta := some .null }) ∧
    with_meta (HttpRequest.new "https://example.com/" .bootstrap 0)
        (.error "key must be a string") = .panicked "key must be a string" :=
  ⟨(with_meta_never_err (HttpRequest.new "https://example.com/" .bootstrap 0)
      (.ok .null)).2.1 .null rfl,
   (with_meta_never_err (HttpRequest.new "https://example.com/" .bootstrap 0)
      (.error "key must be a string")).2.2 "key must be a string" rfl⟩

/-! ### C3 — scheduler request dispatch -/

/-- C3: in `process_requests`, a request is spawned iff its depth is
below `max_depth` and (it is a retry, or URL revisits are allowed, or
its URL is not yet visited); when it is spawned, its URL is inserted
into the visited set before the remaining requests are processed;
otherwise it is dropped with the visited set unchanged.  With
`max_depth = 0` every request is dropped, so no task is spawned and
the visited set never grows. -/
theorem process_requests_dispatch (max_depth : Nat) (allow_url_revisit is_retry : Bool) :
    (∀ (request : HttpRequest) (rest : List HttpRequest) (visited : List String),
      request.depth < max_depth →
      (is_retry = true ∨ allow_url_revisit = true ∨ visited.contains request.url = false) →
      process_requests max_depth allow_url_revisit is_retry (request :: rest) visited =
        ((process_requests max_depth allow_url_revisit is_retry rest
            (request.url :: visited)).1,
         request :: (process_requests max_depth allow_url_revisit is_retry rest
            (request.url :: visited)).2)) ∧
    (∀ (request : HttpRequest) (rest : List HttpRequest) (visited : List String),
      ¬ (request.depth < max_depth ∧
        (is_retry = true ∨ allow_url_revisit = true ∨ visited.contains request.url = false)) →
      process_requests max_depth allow_url_revisit is_retry (request :: rest) visited =
        process_requests max_depth allow_url_revisit is_retry rest visited) ∧
    (∀ (requests : List HttpRequest) (visited : List String),
      process_requests 0 allow_url_revisit is_retry requests visited = (visited, [])) := by
  refine ⟨?_, ?_, ?_⟩
  · intro request rest visited hd hv
    have hcond : (!is_retry && !allow_url_revisit && visited.contains request.url) = false := by
      rcases hv with h | h | h <;> rw [h] <;> simp
    rw [process_requests, if_neg (not_le.mpr hd),
      if_neg (by intro hc; rw [hcond] at hc; exact Bool.false_ne_true hc)]
  · intro request rest visited hno
    by_cases hd : request.depth < max_depth
    · have hcond : (!is_retry && !allow_url_revisit && visited.contains request.url) = true := by
        cases h1 : is_retry
        · cases h2 : allow_url_revisit
          · cases h3 : visited.contains request.url
            · exact absurd ⟨hd, Or.inr (Or.inr h3)⟩ hno
            · simp
          · exact absurd ⟨hd, Or.inr (Or.inl h2)⟩ hno
        · exact absurd ⟨hd, Or.inl h1⟩ hno
      rw [process_requests, if_neg (not_le.mpr hd), if_pos hcond]
    · rw [process_requests, if_pos (not_lt.mp hd)]
  · intro requests
    induction requests with
    | nil => intro visited; rfl
    | cons request rest ih =>
      intro visited
      rw [process_requests, if_pos (Nat.zero_le _)]
      exact ih visited

/-- Witness for `process_requests_dispatch`: with `max_depth = 1` a
fresh depth-0 request is spawned and its URL inserted; the same
request seen again (URL already visited, not a retry, revisits
disallowed) is dropped. -/
theorem process_requests_dispatch_witness :
    process_requests 1 false false
        [HttpRequest.new "https://a.example/" .bootstrap 0] [] =
      (["https://a.example/"], [HttpRequest.new "https://a.example/" .bootstrap 0]) ∧
    process_requests 1 false false
        [HttpRequest.new "https://a.example/" .bootstrap 0] ["https://a.example/"] =
      (["https://a.example/"], []) := by
  constructor
  · have h := (process_requests_dispatch 1 false false).1
      (HttpRequest.new "https://a.example/" .bootstrap 0) [] []
      Nat.zero_lt_one (Or.inr (Or.inr rfl))
    exact h.trans rfl
  · have h := (process_requests_dispatch 1 false false).2.1
      (HttpRequest.new "https://a.example/" .bootstrap 0) [] ["https://a.example/"]
      (by decide)
    exact h.trans rfl

/-! ### C1 — `should_retry_request` match/increment contract -/

/-- C1: `should_retry_request` returns `some (category, delay)` iff
some configured category whose per-URL count is strictly below its
`max_retries` has a request-kind condition applying to
`(status, content)`; on `some`, exactly the matched category's count
for the URL and the URL's `total_retries` are incremented by one,
every other counter (other categories, other URLs) is unchanged, and
the delay is computed from the pre-increment count; on `none` the
state map is unchanged. -/
theorem should_retry_request_contract (rx : String → Option (String → Bool))
    (cfg : RetryConfig) (states : RetryStates) (url : String) (status : Nat)
    (content : String) :
    ((should_retry_request rx cfg states url status content).1.isSome = true ↔
      ∃ p ∈ cfg.categories, (states url).counts p.1 < p.2.max_retries ∧
        ∃ c ∈ p.2.conditions, requestConditionApplies rx c status content = true) ∧
    (∀ category delay,
      (should_retry_request rx cfg states url status content).1 = some (category, delay) →
      ∃ config, (category, config) ∈ cfg.categories ∧
        delay = calculate_delay config ((states url).counts category) ∧
        ((should_retry_request rx cfg states url status content).2 url).counts category =
          (states url).counts category + 1 ∧
        ((should_retry_request rx cfg states url status content).2 url).total_retries =
          (states url).total_retries + 1 ∧
        (∀ c, c ≠ category →
          ((should_retry_request rx cfg states url status content).2 url).counts c =
            (states url).counts c) ∧
        (∀ u, u ≠ url →
          (should_retry_request rx cfg states url status content).2 u = states u)) ∧
    ((should_retry_request rx cfg states url status content).1 = none →
      (should_retry_request rx cfg states url status content).2 = states) := by
  rcases should_retry_request_eq rx cfg states url status content with
    ⟨cat, cc, hf, heq⟩ | ⟨hf, heq⟩
  · obtain ⟨hmem, hlt, hany⟩ := findRequestCategory_some_mem hf
    obtain ⟨c, hc, happ⟩ := List.any_eq_true.mp hany
    refine ⟨?_, ?_, ?_⟩
    · rw [heq]
      simp only [Option.isSome_some, true_iff]
      exact ⟨(cat, cc), hmem, hlt, c, hc, happ⟩
    · intro category delay h
      rw [heq] at h
      simp only [Option.some.injEq, Prod.mk.injEq] at h
      obtain ⟨hcat, hdelay⟩ := h
      subst hcat
      refine ⟨cc, hmem, hdelay.symm, ?_, ?_, ?_, ?_⟩
      · rw [heq]; simp
      · rw [heq]; simp
      · intro c' hc'; rw [heq]; simp [hc']
      · intro u hu; rw [heq]; simp [hu]
    · intro h
      rw [heq] at h
      simp at h
  · refine ⟨?_, ?_, ?_⟩
    · rw [heq]
      refine iff_of_false (by simp) ?_
      rintro ⟨p, hp, hlt, c, hc, happ⟩
      exact findRequestCategory_none_not_mem hf p hp
        ⟨hlt, List.any_eq_true.mpr ⟨c, hc, happ⟩⟩
    · intro category delay h
      rw [heq] at h
      simp at h
    · intro _
      rw [heq]

/-- Witness for `should_retry_request_contract`: on the concrete
rate-limit config, URL and a 429 response, the call matches
`RateLimit`, the count goes from `0` to `1` and `total_retries`
to `1`. -/
theorem should_retry_request_contract_witness :
    (should_retry_request rxNone rateLimitRetryConfig initialStates
        "https://example.com/" 429 "Rate limited").1.isSome = true ∧
    ((should_retry_request rxNone rateLimitRetryConfig initialStates
        "https://example.com/" 429 "Rate limited").2 "https://example.com/").counts
      RetryCategory.rateLimit = 1 ∧
    ((should_retry_request rxNone rateLimitRetryConfig initialStates
        "https://example.com/" 429 "Rate limited").2 "https://example.com/").total_retries = 1 := by
  have h := should_retry_request_contract rxNone rateLimitRetryConfig initialStates
    "https://example.com/" 429 "Rate limited"
  obtain ⟨config, -, -, hcount, htotal, -, -⟩ := h.2.1 RetryCategory.rateLimit
    (calculate_delay rateLimitStatusConfig 0) rfl
  exact ⟨h.1.mpr ⟨(RetryCategory.rateLimit, rateLimitStatusConfig),
    by simp [rateLimitRetryConfig], by simp [rateLimitStatusConfig, initialStates, RetryState.new],
    .request (.statusCode 429), by simp [rateLimitStatusConfig], rfl⟩,
    hcount, htotal⟩

/-! ### C5 — counts never exceed `max_retries` -/

/-- In an association list with pairwise-distinct keys (a `HashMap`),
a key determines its config. -/
theorem nodup_keys_unique {l : List (RetryCategory × CategoryConfig)}
    (hnd : (l.map Prod.fst).Nodup) {category : RetryCategory}
    {c1 c2 : CategoryConfig} (h1 : (category, c1) ∈ l) (h2 : (category, c2) ∈ l) :
    c1 = c2 := by
  induction l with
  | nil => simp at h1
  | cons hd tl ih =>
    rw [List.map_cons, List.nodup_cons] at hnd
    rcases List.mem_cons.1 h1 with e1 | m1 <;> rcases List.mem_cons.1 h2 with e2 | m2
    · obtain ⟨-, h⟩ := Prod.mk.inj (e1.trans e2.symm)
      exact h
    · exfalso
      apply hnd.1
      rw [← e1]
      simpa using List.mem_map_of_mem Prod.fst m2
    · exfalso
      apply hnd.1
      rw [← e2]
      simpa using List.mem_map_of_mem Prod.fst m1
    · exact ih hnd.2 m1 m2

/-- One controller call preserves `CountsBounded`: the only count it
touches was strictly below its cap and is bumped by one. -/
theorem applyEvent_counts_bounded (rx : String → Option (String → Bool))
    {cfg : RetryConfig} (hnd : (cfg.categories.map Prod.fst).Nodup)
    {states : RetryStates} (hb : CountsBounded cfg states) (e : RetryEvent) :
    CountsBounded cfg (applyEvent rx cfg states e) := by
  cases e with
  | request url status content =>
    rcases should_retry_request_eq rx cfg states url status content with
      ⟨cat, cc, hf, heq⟩ | ⟨hf, heq⟩
    · obtain ⟨hmem, hlt, -⟩ := findRequestCategory_some_mem hf
      intro u category config hc
      simp only [applyEvent, heq]
      by_cases hu : u = url
      · subst hu
        rw [if_pos rfl]
        by_cases hcat : category = cat
        · subst hcat
          have hcfg : config = cc := nodup_keys_unique hnd hc hmem
          subst hcfg
          simpa using Nat.succ_le_of_lt hlt
        · simpa [hcat] using hb u category config hc
      · rw [if_neg hu]
        exact hb u category config hc
    · intro u category config hc
      simp only [applyEvent, heq]
      exact hb u category config hc
  | parse url error =>
    rcases should_retry_parse_eq rx cfg states url error with
      ⟨cat, cc, hf, heq⟩ | ⟨hf, heq⟩
    · obtain ⟨hmem, hlt⟩ := findParseCategory_some_mem hf
      intro u category config hc
      simp only [applyEvent, heq]
      by_cases hu : u = url
      · subst hu
        rw [if_pos rfl]
        by_cases hcat : category = cat
        · subst hcat
          have hcfg : config = cc := nodup_keys_unique hnd hc hmem
          subst hcfg
          simpa using Nat.succ_le_of_lt hlt
        · simpa [hcat] using hb u category config hc
      · rw [if_neg hu]
        exact hb u category config hc
    · intro u category config hc
      simp only [applyEvent, heq]
      exact hb u category config hc

/-- `CountsBounded` is preserved along any sequence of
controller calls. -/
theorem runEvents_counts_bounded (rx : String → Option (String → Bool))
    {cfg : RetryConfig} (hnd : (cfg.categories.map Prod.fst).Nodup) :
    ∀ (events : List RetryEvent) {states : RetryStates},
    CountsBounded cfg states → CountsBounded cfg (runEvents rx cfg states events) := by
  intro events
  induction events with
  | nil => intro states hb; exact hb
  | cons e rest ih =>
    intro states hb
    exact ih (applyEvent_counts_bounded rx hnd hb e)

/-- C5: starting from the empty retry-state map, after any sequence
of `should_retry_request` / `should_retry_parse` calls, the stored
count of every URL for every configured category is at most that
category's `max_retries`. -/
theorem retry_counts_never_exceed_max (rx : String → Option (String → Bool))
    (cfg : RetryConfig) (hnd : (cfg.categories.map Prod.fst).Nodup)
    (events : List RetryEvent) (u : String) (category : RetryCategory)
    (config : CategoryConfig) (hmem : (category, config) ∈ cfg.categories) :
    (runEvents rx cfg initialStates events u).counts category ≤ config.max_retries :=
  runEvents_counts_bounded rx hnd events
    (fun _ _ _ _ => Nat.zero_le _) u category config hmem

/-- Witness for `retry_counts_never_exceed_max`: three 429 hits on
the same URL against the `max_retries = 2` rate-limit config leave
the stored count at most `2`. -/
theorem retry_counts_never_exceed_max_witness :
    (runEvents rxNone rateLimitRetryConfig initialStates
      [.request "https://example.com/" 429 "Rate limited",
       .request "https://example.com/" 429 "Rate limited",
       .request "https://example.com/" 429 "Rate limited"]
      "https://example.com/").counts RetryCategory.rateLimit ≤
      rateLimitStatusConfig.max_retries :=
  retry_counts_never_exceed_max rxNone rateLimitRetryConfig
    (by simp [rateLimitRetryConfig])
    [.request "https://example.com/" 429 "Rate limited",
     .request "https://example.com/" 429 "Rate limited",
     .request "https://example.com/" 429 "Rate limited"]
    "https://example.com/" RetryCategory.rateLimit rateLimitStatusConfig
    (by simp [rateLimitRetryConfig])

/-! ### C7 — `retry_count` equals the sum of `retry_history` -/

/-- Bumping one present key's count raises the sum over the
(distinct) keys by exactly one. -/
theorem sum_map_counts_update {l : List (RetryCategory × CategoryConfig)}
    (hnd : (l.map Prod.fst).Nodup) {cat : RetryCategory}
    (hmem : cat ∈ l.map Prod.fst) (f : RetryCategory → Nat) :
    (l.map (fun p => if p.1 = cat then f cat + 1 else f p.1)).sum =
      (l.map (fun p => f p.1)).sum + 1 := by
  induction l with
  | nil => simp at hmem
  | cons hd tl ih =>
    rw [List.map_cons, List.nodup_cons] at hnd
    rw [List.map_cons] at hmem
    by_cases hc : hd.1 = cat
    · subst hc
      have htl : ∀ p ∈ tl, (if p.1 = hd.1 then f hd.1 + 1 else f p.1) = f p.1 := by
        intro p hp
        rw [if_neg]
        intro he
        apply hnd.1
        rw [← he]
        exact List.mem_map_of_mem Prod.fst hp
      rw [List.map_cons, List.map_cons, List.sum_cons, List.sum_cons, if_pos rfl,
        List.map_congr_left htl]
      omega
    · have hmem' : cat ∈ tl.map Prod.fst := by
        rcases List.mem_cons.1 hmem with h | h
        · exact absurd h.symm hc
        · exact h
      rw [List.map_cons, List.map_cons, List.sum_cons, List.sum_cons, if_neg hc,
        ih hnd.2 hmem']
      omega

/-- One controller call preserves `TotalEqSum`: it bumps the matched
category's count (a configured key) and `total_retries` together. -/
theorem applyEvent_total_eq_sum (rx : String → Option (String → Bool))
    {cfg : RetryConfig} (hnd : (cfg.categories.map Prod.fst).Nodup)
    {states : RetryStates} (ht : TotalEqSum cfg states) (e : RetryEvent) :
    TotalEqSum cfg (applyEvent rx cfg states e) := by
  cases e with
  | request url status content =>
    rcases should_retry_request_eq rx cfg states url status content with
      ⟨cat, cc, hf, heq⟩ | ⟨hf, heq⟩
    · obtain ⟨hmem, -, -⟩ := findRequestCategory_some_mem hf
      intro u
      simp only [applyEvent, heq]
      by_cases hu : u = url
      · subst hu
        rw [if_pos rfl]
        have hk : cat ∈ cfg.categories.map Prod.fst := by
          simpa using List.mem_map_of_mem Prod.fst hmem
        show (states u).total_retries + 1 =
          (cfg.categories.map (fun p =>
            if p.1 = cat then (states u).counts cat + 1 else (states u).counts p.1)).sum
        rw [sum_map_counts_update hnd hk ((states u).counts), ← ht u]
      · rw [if_neg hu]
        exact ht u
    · intro u
      simp only [applyEvent, heq]
      exact ht u
  | parse url error =>
    rcases should_retry_parse_eq rx cfg states url error with
      ⟨cat, cc, hf, heq⟩ | ⟨hf, heq⟩
    · obtain ⟨hmem, -⟩ := findParseCategory_some_mem hf
      intro u
      simp only [applyEvent, heq]
      by_cases hu : u = url
      · subst hu
        rw [if_pos rfl]
        have hk : cat ∈ cfg.categories.map Prod.fst := by
          simpa using List.mem_map_of_mem Prod.fst hmem
        show (states u).total_retries + 1 =
          (cfg.categories.map (fun p =>
            if p.1 = cat then (states u).counts cat + 1 else (states u).counts p.1)).sum
        rw [sum_map_counts_update hnd hk ((states u).counts), ← ht u]
      · rw [if_neg hu]
        exact ht u
    · intro u
      simp only [applyEvent, heq]
      exact ht u

/-- `TotalEqSum` is preserved along any sequence of controller
calls. -/
theorem runEvents_total_eq_sum (rx : String → Option (String → Bool))
    {cfg : RetryConfig} (hnd : (cfg.categories.map Prod.fst).Nodup) :
    ∀ (events : List RetryEvent) {states : RetryStates},
    TotalEqSum cfg states → TotalEqSum cfg (runEvents rx cfg states events) := by
  intro events
  induction events with
  | nil => intro states ht; exact ht
  | cons e rest ih =>
    intro states ht
    exact ih (applyEvent_total_eq_sum rx hnd ht e)

/-- The empty retry-state map satisfies `TotalEqSum`. -/
theorem initial_total_eq_sum (cfg : RetryConfig) : TotalEqSum cfg initialStates := by
  intro u
  simp [initialStates, RetryState.new, List.map_const]

/-- A response successfully returned by `fetch` from a state
satisfying `TotalEqSum` carries `retry_count` equal to the sum of
its `retry_history` over the configured categories. -/
theorem fetch_ok_total_eq_sum (rx : String → Option (String → Bool))
    {cfg : RetryConfig} (hnd : (cfg.categories.map Prod.fst).Nodup)
    (transport : Nat → Nat × String) (request : HttpRequest) :
    ∀ (fuel attemptIdx : Nat) (states : RetryStates), TotalEqSum cfg states →
    ∀ (response : HttpResponse) (states' : RetryStates),
    fetch rx cfg transport request fuel attemptIdx states = (.ok response, states') →
    response.retry_count =
      (cfg.categories.map (fun p => response.retry_history p.1)).sum := by
  intro fuel
  induction fuel with
  | zero =>
    intro attemptIdx states ht response states' h
    rw [fetch] at h
    simp at h
  | succ fuel ih =>
    intro attemptIdx states ht response states' h
    rw [fetch] at h
    rcases should_retry_request_eq rx cfg states request.url
        (transport attemptIdx).1 (transport attemptIdx).2 with
      ⟨cat, cc, hf, heq⟩ | ⟨hf, heq⟩
    · rw [heq] at h
      dsimp only at h
      split at h
      · exact absurd (Prod.mk.inj h).1 (by simp)
      · have ht2 := applyEvent_total_eq_sum rx hnd ht
          (.request request.url (transport attemptIdx).1 (transport attemptIdx).2)
        simp only [applyEvent, heq] at ht2
        exact ih (attemptIdx + 1) _ ht2 response states' h
    · rw [heq] at h
      dsimp only at h
      obtain ⟨h1, h2⟩ := Prod.mk.inj h
      obtain h3 := FetchOutcome.ok.inj h1
      subst h3
      simpa [get_retry_state] using ht request.url

/-- C7: every `HttpResponse` successfully returned by `fetch` — run
with any fuel and attempt index from any controller state reachable
from the empty map — satisfies
`retry_count = Σ retry_history` over the configured categories:
`fetch` attaches the snapshot's `total_retries` and `counts`, and
every controller increment of a category count also bumps
`total_retries` by one. -/
theorem response_retry_count_eq_sum_history (rx : String → Option (String → Bool))
    (cfg : RetryConfig) (hnd : (cfg.categories.map Prod.fst).Nodup)
    (events : List RetryEvent) (transport : Nat → Nat × String)
    (request : HttpRequest) (fuel attemptIdx : Nat)
    (response : HttpResponse) (states' : RetryStates)
    (h : fetch rx cfg transport request fuel attemptIdx
      (runEvents rx cfg initialStates events) = (.ok response, states')) :
    response.retry_count =
      (cfg.categories.map (fun p => response.retry_history p.1)).sum :=
  fetch_ok_total_eq_sum rx hnd transport request fuel attemptIdx _
    (runEvents_total_eq_sum rx hnd events (initial_total_eq_sum cfg))
    response states' h

/-- Witness for `response_retry_count_eq_sum_history`: the scenario
"429 once, then 200" yields a response with `retry_count = 1` and
`retry_history = {RateLimit ↦ 1}`, whose sum is `1`. -/
theorem response_retry_count_eq_sum_history_witness :
    ({ status := 200, decoded_body := "Success", retry_count := 1
       retry_history := fun c => if c = RetryCategory.rateLimit then 1 else 0 } :
      HttpResponse).retry_count =
    (rateLimitRetryConfig.categories.map (fun p =>
      ({ status := 200, decoded_body := "Success", retry_count := 1
         retry_history := fun c => if c = RetryCategory.rateLimit then 1 else 0 } :
        HttpResponse).retry_history p.1)).sum :=
  response_retry_count_eq_sum_history rxNone rateLimitRetryConfig
    (by simp [rateLimitRetryConfig]) [] once429Transport exampleRequest 3 0 _ _ rfl

/-! ### C2 — `fetch` stops with `MaxRetriesReached` -/

/-- C2: whenever an iteration of the `fetch` loop obtains a retry
match whose now-incremented count for the matched category has
reached that category's `max_retries`, `fetch` returns the terminal
`MaxRetriesReached{category, retry_count, url}` paired with the
original request, with no further sleep or re-fetch; in particular,
against a transport always answering 429 and the `RateLimit`
category with `max_retries = 2`, `fetch` returns
`MaxRetriesReached(RateLimit, 2, url)` with the original request. -/
theorem fetch_stops_at_max_retries :
    (∀ (rx : String → Option (String → Bool)) (cfg : RetryConfig)
        (transport : Nat → Nat × String) (request : HttpRequest)
        (fuel attemptIdx : Nat) (states states' : RetryStates)
        (category : RetryCategory) (delay : ℚ),
      should_retry_request rx cfg states request.url
          (transport attemptIdx).1 (transport attemptIdx).2 =
        (some (category, delay), states') →
      fetchCategoryMax cfg category ≤
        (get_retry_state states' request.url).counts category →
      fetch rx cfg transport request (fuel + 1) attemptIdx states =
        (.maxRetriesReached category
          ((get_retry_state states' request.url).counts category)
          request.url request, states')) ∧
    (fetch rxNone rateLimitRetryConfig always429 exampleRequest 3 0 initialStates).1 =
      .maxRetriesReached RetryCategory.rateLimit 2 exampleRequest.url exampleRequest := by
  constructor
  · intro rx cfg transport request fuel attemptIdx states states' category delay hR hMax
    rw [fetch, hR]
    dsimp only
    rw [if_pos hMax]
  · rfl

/-- Witness for `fetch_stops_at_max_retries`: after one recorded
rate-limit retry, the next 429 bumps the count to `2 = max_retries`
and the loop returns the terminal error with the original request
right away. -/
theorem fetch_stops_at_max_retries_witness :
    fetch rxNone rateLimitRetryConfig always429 exampleRequest 1 0 oneRateLimitStates =
    (.maxRetriesReached RetryCategory.rateLimit 2 exampleRequest.url exampleRequest,
     (should_retry_request rxNone rateLimitRetryConfig oneRateLimitStates
       exampleRequest.url (always429 0).1 (always429 0).2).2) := by
  have h := fetch_stops_at_max_retries.1 rxNone rateLimitRetryConfig always429
    exampleRequest 0 0 oneRateLimitStates
    ((should_retry_request rxNone rateLimitRetryConfig oneRateLimitStates
      exampleRequest.url (always429 0).1 (always429 0).2).2)
    RetryCategory.rateLimit (calculate_delay rateLimitStatusConfig 1) rfl (by decide)
  exact h.trans rfl

end Turboscraper
